import Mathlib

/-!
Shallow embedding of the deribitsystem trading gateway core, translated from
src/libs/order_placement/order_placement.cpp and
src/libs/websocket/websocket_manager.cpp, together with theorems settling the
frozen claims about the request dispatcher and the subscription bridge.
-/

namespace Deribit

/-- JSON scalar values as they occur in the request parameter objects built by
the dispatcher (nlohmann json values restricted to the shapes the code uses).
Numeric fields (amounts, prices, depth) are carried as rationals. -/
inductive JVal where
  | jstr : String → JVal
  | jnum : ℚ → JVal
  | jbool : Bool → JVal
  | jint : Int → JVal
deriving DecidableEq, Repr

/-- A JSON object, as a key-value association list. -/
abbrev Params := List (String × JVal)

/-- Model of the private OrderPlacement error conditions surfaced
synchronously to the caller. -/
inductive OPError where
  | invalidArgument
deriving DecidableEq, Repr

/-- Request envelope, from struct ApiRequest in order_placement.h
(method string plus params; the promise and timestamp are modelled at the
transition-system level below). -/
structure Envelope where
  method : String
  params : Params
deriving DecidableEq, Repr

/-- Model of OrderPlacement::queueRequest: build an envelope and push it at
the back of the FIFO request queue; the future handle is returned to the
caller (modelled by returning the envelope itself). -/
def queueRequest (q : List Envelope) (method : String) (params : Params) :
    List Envelope × Envelope :=
  (q ++ [⟨method, params⟩], ⟨method, params⟩)

/-- Model of the params object built by OrderPlacement::placeOrder
(order_placement.cpp lines 198-217): base object with instrument_name,
amount, type; then price for limit and stop_limit; then trigger and
trigger_price for stop_market and stop_limit; then reduce_only when set. -/
def placeOrderParams (instrument ty : String) (amount price : ℚ)
    (reduceOnly : Bool) : Params :=
  let base : Params :=
    [("instrument_name", .jstr instrument), ("amount", .jnum amount),
     ("type", .jstr ty)]
  let p1 := if ty = "limit" ∨ ty = "stop_limit"
    then base ++ [("price", .jnum price)] else base
  let p2 := if ty = "stop_market" ∨ ty = "stop_limit"
    then p1 ++ [("trigger", .jstr "last_price"), ("trigger_price", .jnum price)]
    else p1
  if reduceOnly then p2 ++ [("reduce_only", .jbool true)] else p2

/-- Model of OrderPlacement::placeOrder acting on the request queue: reject
sides other than buy and sell with invalid_argument before touching the
queue, otherwise enqueue an envelope with method private/side. Returns the
result handed to the caller together with the queue after the call. -/
def placeOrder (q : List Envelope) (instrument side ty : String)
    (amount price : ℚ) (reduceOnly : Bool) :
    Except OPError Envelope × List Envelope :=
  if side ≠ "buy" ∧ side ≠ "sell" then
    (.error .invalidArgument, q)
  else
    let r := queueRequest q ("private/" ++ side)
      (placeOrderParams instrument ty amount price reduceOnly)
    (.ok r.2, r.1)

/-- Token captured from a successful public/auth response
(order_placement.cpp lines 131-137). -/
structure AuthToken where
  accessToken : String
  refreshToken : String
  expiresIn : Int
deriving DecidableEq, Repr

/-- Errors a construction of OrderPlacement can fail with: the credentials
check throwing runtime_error (ConfigError kind) or the initial authenticate
throwing (AuthError kind). -/
inductive CtorError where
  | configError
  | authError (body : String)
deriving DecidableEq, Repr

/-- State of a freshly constructed OrderPlacement object: worker running flag
and the captured token. -/
structure OPInit where
  running : Bool
  token : AuthToken
deriving DecidableEq, Repr

/-- Model of the OrderPlacement constructor (order_placement.cpp lines 9-23):
read the three environment values, throw when apiKey or apiSecret is empty,
then authenticate (authResp models the parsed public/auth response: some
token when the body contains result, none otherwise) and start the worker.
The baseUrl value is read but never validated. -/
def constructOrderPlacement (apiKey apiSecret baseUrl : String)
    (authResp : Option AuthToken) : Except CtorError OPInit :=
  if apiKey = "" ∨ apiSecret = "" then
    .error .configError
  else
    match authResp with
    | none => .error (.authError "Authentication failed")
    | some tok => .ok ⟨true, tok⟩

/-- Mutable token state owned by the dispatcher: access_token, refresh_token,
token_expiry (seconds) and last_auth_time (steady-clock seconds). -/
structure TokenState where
  accessToken : String
  refreshToken : String
  tokenExpiry : Int
  lastAuthTime : Int
deriving DecidableEq, Repr

/-- Observable HTTP side effects of the dispatcher, in issue order: a
public/auth POST (no bearer header) or an authenticated POST of a method
with the bearer token used in the Authorization header. -/
inductive HttpEvent where
  | authPost
  | rpcPost (method : String) (bearer : String)
deriving DecidableEq, Repr

/-- Model of OrderPlacement::authenticate (order_placement.cpp lines
112-142): on a response containing result, capture the token fields and set
last_auth_time to the current steady-clock reading; otherwise throw. -/
def authenticate (st : TokenState) (now : Int) (resp : Option AuthToken) :
    Except String TokenState :=
  match resp with
  | some tok =>
      .ok ⟨tok.accessToken, tok.refreshToken, tok.expiresIn, now⟩
  | none => .error "Authentication failed"

/-- Model of OrderPlacement::sendAuthenticatedRequest (order_placement.cpp
lines 144-165): compute elapsed = now - last_auth_time; re-authenticate when
elapsed is strictly greater than token_expiry - 60; then POST the method with
the Bearer header holding the current access token. Returns the ordered list
of HTTP events together with the token state after the call (or the
propagated authentication failure). -/
def sendAuthenticatedRequest (st : TokenState) (now : Int)
    (resp : Option AuthToken) (method : String) :
    List HttpEvent × Except String TokenState :=
  let elapsed := now - st.lastAuthTime
  if elapsed > st.tokenExpiry - 60 then
    match authenticate st now resp with
    | .ok st2 => ([.authPost, .rpcPost method st2.accessToken], .ok st2)
    | .error e => ([.authPost], .error e)
  else
    ([.rpcPost method st.accessToken], .ok st)

/-- Program counter of the dispatcher worker thread inside
OrderPlacement::processRequests (order_placement.cpp lines 73-110):
at the while-running test at the top of the loop, inside an iteration at the
condition-variable wait, or returned from the thread function. -/
inductive WPC where
  | loopTop
  | inWait
  | done
deriving DecidableEq, Repr

/-- Interleaved state of the dispatcher object shared between caller threads
(queueRequest, stopWorker) and the worker thread (processRequests). Envelopes
are identified by the order of their submission; sent records the order in
which the worker issued their upstream requests and completed records the
promises the worker fired (value or exception). -/
structure Sys where
  queue : List Nat
  nextId : Nat
  running : Bool
  wpc : WPC
  sent : List Nat
  completed : List Nat
deriving DecidableEq, Repr

/-- State right after the constructor returned: startWorker set running and
spawned the worker, which is at the top of its loop. -/
def Sys.init : Sys := ⟨[], 0, true, .loopTop, [], []⟩

/-- One interleaving step of the dispatcher, faithful to order_placement.cpp:
queueRequest pushes at the back with no check of running; stopWorker clears
running; the worker at the loop top either enters the iteration (running
true) or returns (running false, regardless of the queue); inside the
iteration the wait releases when the queue is nonempty (pop the head, send
the request and fire its promise) or when running is false with an empty
queue (break). -/
inductive Step : Sys → Sys → Prop where
  | enqueue (s : Sys) :
      Step s { s with queue := s.queue ++ [s.nextId], nextId := s.nextId + 1 }
  | stop (s : Sys) :
      Step s { s with running := false }
  | enterLoop (s : Sys) (h : s.wpc = .loopTop) (hr : s.running = true) :
      Step s { s with wpc := .inWait }
  | exitLoop (s : Sys) (h : s.wpc = .loopTop) (hr : s.running = false) :
      Step s { s with wpc := .done }
  | serviceHead (s : Sys) (e : Nat) (rest : List Nat) (h : s.wpc = .inWait)
      (hq : s.queue = e :: rest) :
      Step s { s with queue := rest, sent := s.sent ++ [e],
                      completed := s.completed ++ [e], wpc := .loopTop }
  | exitWait (s : Sys) (h : s.wpc = .inWait) (hq : s.queue = [])
      (hr : s.running = false) :
      Step s { s with wpc := .done }

/-- States of the dispatcher reachable from construction. -/
def Reachable (s : Sys) : Prop := Relation.ReflTransGen Step Sys.init s

/-- Character-list view of the std::string values the channel parser
manipulates. -/
abbrev Chars := List Char

/-- Subscription registry entry, from struct SubscriptionInfo in
websocket_manager.cpp: type (orderbook or position), symbol, and the session
the weak_ptr refers to, identified by a session id. The set of live session
ids stands for the sessions whose weak_ptr has not expired. -/
structure Sub where
  type : Chars
  symbol : Chars
  sid : Nat
deriving DecidableEq, Repr

/-- Model of cleanupDeadSubscriptions (websocket_manager.cpp lines 14-23):
erase every entry whose weak session reference has expired. -/
def cleanupDeadSubscriptions (live : List Nat) (subs : List Sub) : List Sub :=
  subs.filter (fun sub => decide (sub.sid ∈ live))

/-- Model of broadcastToSubscribers (websocket_manager.cpp lines 25-36):
sweep dead entries, then for each surviving entry whose weak reference still
locks, send the data to its session when type and symbol match. Returns the
registry after the sweep and the ordered list of (session, payload) sends. -/
def broadcastToSubscribers (data : String) (ty sym : Chars) (live : List Nat)
    (subs : List Sub) : List Sub × List (Nat × String) :=
  let cleaned := cleanupDeadSubscriptions live subs
  (cleaned,
    (cleaned.filter (fun sub =>
        decide (sub.sid ∈ live) && decide (sub.type = ty)
          && decide (sub.symbol = sym))).map
      (fun sub => (sub.sid, data)))

/-- Model of the channel parsing for the book branch of the upstream
onMessage handler (websocket_manager.cpp lines 158-162): pos = find of the
first dot, symbol = substr(pos+1), then symbol = substr(0, find of the next
dot); substr clamps at the length when find misses, as indexOf returns the
length for an absent character. -/
def parseBookSymbol (channel : Chars) : Chars :=
  let pos := channel.indexOf '.'
  let rest := channel.drop (pos + 1)
  rest.take (rest.indexOf '.')

/-- An upstream frame as inspected by the bridge: whether it carries an id
field, and the pair (params.channel, params.data) when both are present. -/
structure UpFrame where
  hasId : Bool
  payload : Option (Chars × String)
deriving DecidableEq, Repr

/-- Model of the upstream onMessage handler installed by
WebSocketManager::setupDeribitClient (websocket_manager.cpp lines 138-177):
frames with an id are acknowledgements, no fan-out; frames with
params.channel and params.data are routed on the channel name, the book
branch testing substr(0,5) against the five characters of book. and the
position branch testing substr(0,13) against the fourteen characters of
user.position. — with substr(13) as the symbol; other shapes are ignored. -/
def handleUpstream (live : List Nat) (subs : List Sub) (fr : UpFrame) :
    List Sub × List (Nat × String) :=
  if fr.hasId then (subs, [])
  else
    match fr.payload with
    | none => (subs, [])
    | some (channel, data) =>
      if channel.take 5 = "book.".toList then
        broadcastToSubscribers data "orderbook".toList
          (parseBookSymbol channel) live subs
      else if channel.take 13 = "user.position.".toList then
        broadcastToSubscribers data "position".toList (channel.drop 13)
          live subs
      else (subs, [])

/-- Channel name built by handleOrderBookSubscription
(websocket_manager.cpp line 117): book. followed by the symbol followed
by .100ms. -/
def bookChannelOf (sym : Chars) : Chars :=
  "book.".toList ++ sym ++ ".100ms".toList

/-- Channel name built by the subscribe_position branch
(websocket_manager.cpp line 78): user.position. followed by the symbol. -/
def positionChannelOf (sym : Chars) : Chars :=
  "user.position.".toList ++ sym

/-- A downstream frame after JSON parsing: the method and symbol fields when
present. A parse failure is modelled as none at the call site. -/
structure DownMsg where
  method : Option Chars
  symbol : Option Chars
deriving DecidableEq, Repr

/-- Model of the downstream onMessage handler installed by
WebSocketManager::setupLocalServer (websocket_manager.cpp lines 50-100)
together with handleOrderBookSubscription (lines 107-130). The msg argument
is the parse result (none on parse_error, which is only logged). connected
models isConnected; sendThrows models sendMessage throwing. For
subscribe_orderbook the upstream subscribe is attempted inside
handleOrderBookSubscription, which swallows failures, and the registry entry
is appended afterwards in every case. For subscribe_position the handler
returns before the push when not connected, and an exception from the send
skips the push because the push sits after the send inside the try block.
Returns the registry after the call and the upstream channels subscribed. -/
def onDownstreamMessage (connected sendThrows : Bool) (sid : Nat)
    (subs : List Sub) (msg : Option DownMsg) : List Sub × List Chars :=
  match msg with
  | none => (subs, [])
  | some m =>
    match m.method with
    | none => (subs, [])
    | some method =>
      match m.symbol with
      | none => (subs, [])
      | some sym =>
        if method = "subscribe_orderbook".toList then
          let sends := if connected && !sendThrows
            then [bookChannelOf sym] else []
          (subs ++ [⟨"orderbook".toList, sym, sid⟩], sends)
        else if method = "subscribe_position".toList then
          if !connected then (subs, [])
          else if sendThrows then (subs, [])
          else (subs ++ [⟨"position".toList, sym, sid⟩],
                [positionChannelOf sym])
        else (subs, [])

/-- C5: for side buy or sell, placeOrder enqueues an envelope with upstream
method private/side whose params always contain instrument_name, amount and
type; contain price (equal to the passed price) exactly when type is limit
or stop_limit; contain trigger last_price and trigger_price exactly when
type is stop_market or stop_limit; and contain reduce_only true exactly when
reduceOnly is set. -/
theorem placeOrder_params_shape (q : List Envelope)
    (instrument side ty : String) (amount price : ℚ) (reduceOnly : Bool)
    (hside : side = "buy" ∨ side = "sell") :
    ∃ p : Params,
      placeOrder q instrument side ty amount price reduceOnly
          = (.ok ⟨"private/" ++ side, p⟩, q ++ [⟨"private/" ++ side, p⟩]) ∧
      p.lookup "instrument_name" = some (.jstr instrument) ∧
      p.lookup "amount" = some (.jnum amount) ∧
      p.lookup "type" = some (.jstr ty) ∧
      (p.lookup "price" = if ty = "limit" ∨ ty = "stop_limit"
        then some (.jnum price) else none) ∧
      (p.lookup "trigger" = if ty = "stop_market" ∨ ty = "stop_limit"
        then some (.jstr "last_price") else none) ∧
      (p.lookup "trigger_price" = if ty = "stop_market" ∨ ty = "stop_limit"
        then some (.jnum price) else none) ∧
      (p.lookup "reduce_only" = if reduceOnly
        then some (.jbool true) else none) := by
  refine ⟨placeOrderParams instrument ty amount price reduceOnly, ?_, ?_⟩
  · have hcond : ¬(side ≠ "buy" ∧ side ≠ "sell") := by
      rcases hside with h | h <;> simp [h]
    simp [placeOrder, queueRequest, hcond]
  · by_cases h1 : ty = "limit" ∨ ty = "stop_limit" <;>
      by_cases h2 : ty = "stop_market" ∨ ty = "stop_limit" <;>
        cases reduceOnly <;>
          simp [placeOrderParams, h1, h2, List.lookup]

/-- C5 witness: scenario S3 of the spec at concrete arguments. -/
theorem placeOrder_params_shape_witness :
    ∃ p : Params,
      placeOrder [] "X-PERP" "buy" "limit" 1 100 false
          = (.ok ⟨"private/" ++ "buy", p⟩, [] ++ [⟨"private/" ++ "buy", p⟩]) ∧
      p.lookup "instrument_name" = some (.jstr "X-PERP") ∧
      p.lookup "amount" = some (.jnum 1) ∧
      p.lookup "type" = some (.jstr "limit") ∧
      (p.lookup "price" = if ("limit" : String) = "limit" ∨ ("limit" : String) = "stop_limit"
        then some (.jnum 100) else none) ∧
      (p.lookup "trigger" = if ("limit" : String) = "stop_market" ∨ ("limit" : String) = "stop_limit"
        then some (.jstr "last_price") else none) ∧
      (p.lookup "trigger_price" = if ("limit" : String) = "stop_market" ∨ ("limit" : String) = "stop_limit"
        then some (.jnum 100) else none) ∧
      (p.lookup "reduce_only" = if false then some (.jbool true) else none) :=
  placeOrder_params_shape [] "X-PERP" "buy" "limit" 1 100 false (Or.inl rfl)

/-- C7: placeOrder with a side that is neither buy nor sell fails with
invalid_argument and hands back the queue unchanged: the envelope is never
enqueued. -/
theorem placeOrder_invalid_side (q : List Envelope)
    (instrument side ty : String) (amount price : ℚ) (reduceOnly : Bool)
    (h1 : side ≠ "buy") (h2 : side ≠ "sell") :
    placeOrder q instrument side ty amount price reduceOnly
      = (.error .invalidArgument, q) := by
  simp [placeOrder, h1, h2]

/-- C7 witness: side hold is rejected synchronously and the empty queue
stays empty. -/
theorem placeOrder_invalid_side_witness :
    placeOrder [] "X" "hold" "limit" 1 100 false
      = (.error .invalidArgument, []) :=
  placeOrder_invalid_side [] "X" "hold" "limit" 1 100 false
    (by decide) (by decide)

/-- C9 counterexample: with an empty base URL but nonempty api key and
secret, construction does not fail with the ConfigError kind; the
credentials check passes, authentication proceeds, and the worker is
started, contradicting the claim that a missing base URL fails construction
with ConfigError. -/
theorem construct_empty_baseUrl_no_configError :
    constructOrderPlacement "key" "secret" "" (some ⟨"T", "R", 900⟩)
        = .ok ⟨true, ⟨"T", "R", 900⟩⟩ ∧
      constructOrderPlacement "key" "secret" "" (some ⟨"T", "R", 900⟩)
        ≠ .error .configError :=
  ⟨rfl, by simp [constructOrderPlacement]⟩

/-- C9 amended: construction fails with ConfigError exactly when api_key or
api_secret is empty — the base URL is never validated; a successful
construction implies the worker was started and the initial authentication
succeeded; and with nonempty credentials a successful authentication makes
construction succeed with the worker running. -/
theorem construct_validates_only_credentials (k s u : String)
    (r : Option AuthToken) :
    (constructOrderPlacement k s u r = .error .configError
        ↔ k = "" ∨ s = "") ∧
    (∀ st, constructOrderPlacement k s u r = .ok st →
        st.running = true ∧ r = some st.token) ∧
    (k ≠ "" → s ≠ "" → ∀ tok, r = some tok →
        constructOrderPlacement k s u r = .ok ⟨true, tok⟩) := by
  by_cases h : k = "" ∨ s = ""
  · refine ⟨by simp [constructOrderPlacement, h], ?_, ?_⟩
    · intro st hst
      simp [constructOrderPlacement, h] at hst
    · intro hk hs
      rcases h with h | h
      · exact absurd h hk
      · exact absurd h hs
  · cases r with
    | none =>
        refine ⟨by simp [constructOrderPlacement, h], ?_, ?_⟩
        · intro st hst
          simp [constructOrderPlacement, h] at hst
        · intro _ _ tok htok
          exact absurd htok (by simp)
    | some tok =>
        refine ⟨by simp [constructOrderPlacement, h], ?_, ?_⟩
        · intro st hst
          simp [constructOrderPlacement, h] at hst
          simp [← hst]
        · intro _ _ tok2 htok
          obtain rfl : tok = tok2 := by simpa using htok
          simp [constructOrderPlacement, h]

/-- C9 amended witness: nonempty credentials and a successful initial
authentication yield a constructed object with the worker running. -/
theorem construct_validates_only_credentials_witness :
    constructOrderPlacement "key" "secret" "https://test.deribit.com"
        (some ⟨"T2", "R2", 900⟩) = .ok ⟨true, ⟨"T2", "R2", 900⟩⟩ :=
  (construct_validates_only_credentials "key" "secret"
      "https://test.deribit.com" (some ⟨"T2", "R2", 900⟩)).2.2
    (by decide) (by decide) ⟨"T2", "R2", 900⟩ rfl

/-- C2 counterexample: with expires_in 900 and elapsed exactly 840 = 900-60
seconds, the claim forbids sending an authenticated RPC before
re-authenticating, yet the code compares with strict greater-than and issues
the authenticated POST with the stale bearer and no public/auth request. -/
theorem freshness_boundary_counterexample :
    ((840 : Int) - 0 ≥ 900 - 60) ∧
    sendAuthenticatedRequest ⟨"OLD", "R", 900, 0⟩ 840 (some ⟨"NEW", "R2", 900⟩)
        "private/get_positions"
      = ([.rpcPost "private/get_positions" "OLD"], .ok ⟨"OLD", "R", 900, 0⟩) :=
  ⟨by decide, rfl⟩

/-- C2 amended: re-authentication happens exactly when elapsed is strictly
greater than expires_in - 60; in that case the public/auth POST precedes the
authenticated POST, which carries the freshly captured bearer token, and an
authentication failure prevents any authenticated POST; when elapsed is at
most expires_in - 60 the POST is sent directly with the current token. -/
theorem sendAuthenticatedRequest_strict_threshold (st : TokenState)
    (now : Int) (tok : AuthToken) (method : String) :
    (now - st.lastAuthTime > st.tokenExpiry - 60 →
        sendAuthenticatedRequest st now (some tok) method
          = ([.authPost, .rpcPost method tok.accessToken],
             .ok ⟨tok.accessToken, tok.refreshToken, tok.expiresIn, now⟩)) ∧
    (now - st.lastAuthTime ≤ st.tokenExpiry - 60 →
        sendAuthenticatedRequest st now (some tok) method
          = ([.rpcPost method st.accessToken], .ok st)) ∧
    (now - st.lastAuthTime > st.tokenExpiry - 60 →
        sendAuthenticatedRequest st now none method
          = ([.authPost], .error "Authentication failed")) := by
  refine ⟨fun h => ?_, fun h => ?_, fun h => ?_⟩
  · simp only [sendAuthenticatedRequest, authenticate]
    rw [if_pos h]
  · simp only [sendAuthenticatedRequest, authenticate]
    rw [if_neg (not_lt.mpr h)]
  · simp only [sendAuthenticatedRequest, authenticate]
    rw [if_pos h]

/-- C2 amended witness: one second past the refresh threshold, the
public/auth request precedes the POST and the POST carries the new token. -/
theorem freshness_strict_witness :
    sendAuthenticatedRequest ⟨"OLD", "R", 900, 0⟩ 841
        (some ⟨"NEW", "R2", 900⟩) "private/buy"
      = ([.authPost, .rpcPost "private/buy" "NEW"],
         .ok ⟨"NEW", "R2", 900, 841⟩) :=
  (sendAuthenticatedRequest_strict_threshold ⟨"OLD", "R", 900, 0⟩ 841
      ⟨"NEW", "R2", 900⟩ "private/buy").1 (by decide)

/-- Queue bookkeeping invariant of the dispatcher: the ids the worker has
serviced followed by the ids still queued are exactly the ids handed out,
in submission order. -/
theorem reachable_sent_append_queue (s : Sys) (h : Reachable s) :
    s.sent ++ s.queue = List.range s.nextId := by
  induction h with
  | refl => rfl
  | tail _ hstep ih =>
      rename_i b c hreach
      cases hstep with
      | enqueue =>
          simpa [← List.append_assoc, ih] using (List.range_succ b.nextId).symm
      | stop => simpa using ih
      | enterLoop h hr => simpa using ih
      | exitLoop h hr => simpa using ih
      | serviceHead e rest h hq =>
          rw [List.append_assoc]
          simpa [← hq] using ih
      | exitWait h hq hr => simpa using ih

/-- C8: in every reachable state of the dispatcher the worker has serviced
envelopes in strictly increasing submission order (an envelope submitted
first is sent first) and has never observed an envelope twice; moreover what
was serviced followed by what is queued is exactly the submission sequence. -/
theorem dispatcher_fifo (s : Sys) (h : Reachable s) :
    s.sent.Sorted (· < ·) ∧ s.sent.Nodup ∧
      s.sent ++ s.queue = List.range s.nextId := by
  have key := reachable_sent_append_queue s h
  have hsub : s.sent.Sublist (List.range s.nextId) := by
    have := List.sublist_append_left s.sent s.queue
    rwa [key] at this
  exact ⟨List.Pairwise.sublist hsub (List.sorted_lt_range _),
    List.Nodup.sublist hsub (List.nodup_range _), key⟩

/-- C8 witness: after submitting envelopes 0 and 1, with the worker having
serviced envelope 0, the serviced order is sorted and duplicate-free and
the bookkeeping adds up. -/
theorem dispatcher_fifo_witness :
    ([0] : List Nat).Sorted (· < ·) ∧ ([0] : List Nat).Nodup ∧
      [0] ++ [1] = List.range 2 := by
  have h1 : Step Sys.init ⟨[0], 1, true, .loopTop, [], []⟩ :=
    Step.enqueue Sys.init
  have h2 : Step ⟨[0], 1, true, .loopTop, [], []⟩
      ⟨[0], 1, true, .inWait, [], []⟩ :=
    Step.enterLoop _ rfl rfl
  have h3 : Step ⟨[0], 1, true, .inWait, [], []⟩
      ⟨[], 1, true, .loopTop, [0], [0]⟩ :=
    Step.serviceHead _ 0 [] rfl rfl
  have h4 : Step ⟨[], 1, true, .loopTop, [0], [0]⟩
      ⟨[1], 2, true, .loopTop, [0], [0]⟩ :=
    Step.enqueue _
  exact dispatcher_fifo ⟨[1], 2, true, .loopTop, [0], [0]⟩
    (.tail (.tail (.tail (.tail .refl h1) h2) h3) h4)

/-- C1: the claim fails on the code. The state in which the worker thread
has returned (wpc done) while envelopes 0 and 1 are still queued, unsent and
uncompleted, is reachable: submit two RPCs, call stopWorker before the
worker pops either, and let the worker test the while-running condition at
the top of its loop — the loop exits without draining the queue, so the two
completion handles never fire even though the spec requires every handle to
fire at shutdown. -/
theorem processRequests_abandons_pending_on_stop :
    Reachable { queue := [0, 1], nextId := 2, running := false,
                wpc := WPC.done, sent := [], completed := [] } := by
  have h1 : Step Sys.init ⟨[0], 1, true, .loopTop, [], []⟩ :=
    Step.enqueue Sys.init
  have h2 : Step ⟨[0], 1, true, .loopTop, [], []⟩
      ⟨[0, 1], 2, true, .loopTop, [], []⟩ :=
    Step.enqueue _
  have h3 : Step ⟨[0, 1], 2, true, .loopTop, [], []⟩
      ⟨[0, 1], 2, false, .loopTop, [], []⟩ :=
    Step.stop _
  have h4 : Step ⟨[0, 1], 2, false, .loopTop, [], []⟩
      ⟨[0, 1], 2, false, .done, [], []⟩ :=
    Step.exitLoop _ rfl rfl
  exact .tail (.tail (.tail (.tail .refl h1) h2) h3) h4

/-- Index of the first dot in a dot-free list followed by a dot: the length
of the dot-free part. -/
theorem indexOf_append_dot (X : Chars) (hX : '.' ∉ X) (r : Chars) :
    (X ++ '.' :: r).indexOf '.' = X.length := by
  induction X with
  | nil => simp [List.indexOf_cons]
  | cons c t ih =>
      simp only [List.mem_cons, not_or] at hX
      obtain ⟨hc, ht⟩ := hX
      have hb : (c == '.') = false :=
        beq_eq_false_iff_ne.mpr (fun h => hc h.symm)
      simp [List.cons_append, List.indexOf_cons, hb, ih ht]

/-- Taking up to the first dot on an appended list whose left part holds a
dot stays inside the left part and equals its longest dot-free front. -/
theorem take_indexOf_append_of_mem (sym r : Chars) (h : '.' ∈ sym) :
    (sym ++ r).take ((sym ++ r).indexOf '.')
      = sym.takeWhile (fun c => c ≠ '.') := by
  induction sym with
  | nil => simp at h
  | cons c t ih =>
      by_cases hc : c = '.'
      · subst hc
        simp [List.indexOf_cons, List.takeWhile_cons]
      · have h' : '.' ∈ t := by
          rcases List.mem_cons.mp h with h0 | h0
          · exact absurd h0.symm hc
          · exact h0
        have hb : (c == '.') = false := beq_eq_false_iff_ne.mpr hc
        simp [List.cons_append, List.indexOf_cons, hb, List.takeWhile_cons,
          hc, ih h']

/-- Unfolding of the book-branch parser on a channel built by the subscribe
path: after the fixed five-character front, the parser takes the remainder
up to its first dot. -/
theorem parse_book_eq (X : Chars) :
    parseBookSymbol (bookChannelOf X)
      = (X ++ ".100ms".toList).take ((X ++ ".100ms".toList).indexOf '.') :=
  rfl

/-- On dot-free symbols the parser inverts the channel builder. -/
theorem parse_book_nodot (X : Chars) (hX : '.' ∉ X) :
    parseBookSymbol (bookChannelOf X) = X := by
  rw [parse_book_eq]
  have hdot : ".100ms".toList = '.' :: "100ms".toList := rfl
  rw [hdot, indexOf_append_dot X hX]
  exact List.take_left X _

/-- On symbols holding a dot the parser recovers only the front of the
symbol before its first dot. -/
theorem parse_book_dot (X : Chars) (hX : '.' ∈ X) :
    parseBookSymbol (bookChannelOf X)
      = X.takeWhile (fun c => c ≠ '.') := by
  rw [parse_book_eq]
  exact take_indexOf_append_of_mem X _ hX

/-- C10: parsing the channel built by the subscribe path recovers the
symbol exactly when the symbol holds no dot; for a symbol with a dot the
parser recovers only the front of the symbol before its first dot, so the
round trip fails there. -/
theorem book_channel_round_trip (sym : Chars) :
    ('.' ∉ sym → parseBookSymbol (bookChannelOf sym) = sym) ∧
    ('.' ∈ sym →
        parseBookSymbol (bookChannelOf sym)
            = sym.takeWhile (fun c => c ≠ '.') ∧
        parseBookSymbol (bookChannelOf sym) ≠ sym) := by
  refine ⟨fun h => parse_book_nodot sym h, fun h => ⟨parse_book_dot sym h, ?_⟩⟩
  rw [parse_book_dot sym h]
  intro heq
  rw [List.takeWhile_eq_self_iff] at heq
  simpa using heq '.' h

/-- C10 witness: BTC-PERP survives the round trip; A.B comes back as A. -/
theorem book_channel_round_trip_witness :
    parseBookSymbol (bookChannelOf "BTC-PERP".toList) = "BTC-PERP".toList ∧
    (parseBookSymbol (bookChannelOf "A.B".toList)
        = ("A.B".toList).takeWhile (fun c => c ≠ '.') ∧
     parseBookSymbol (bookChannelOf "A.B".toList) ≠ "A.B".toList) :=
  ⟨(book_channel_round_trip "BTC-PERP".toList).1 (by decide),
   (book_channel_round_trip "A.B".toList).2 (by decide)⟩

/-- C3: the claim fails on the code. For every frame whose channel is
user.position. followed by any symbol, with data and no id, the handler
changes nothing and sends nothing: the branch guard compares
substr(0,13), a string of at most thirteen characters, against the
fourteen-character literal user.position., which never holds, so position
fan-out is dead code. -/
theorem position_frames_never_fan_out (Y : Chars) (live : List Nat)
    (subs : List Sub) (data : String) :
    handleUpstream live subs ⟨false, some (positionChannelOf Y, data)⟩
      = (subs, []) := by
  have h5 : (positionChannelOf Y).take 5 ≠ "book.".toList := by
    simp only [positionChannelOf]
    rw [List.take_append_of_le_length (by decide)]
    decide
  have h13 : (positionChannelOf Y).take 13 ≠ "user.position.".toList := by
    simp only [positionChannelOf]
    rw [List.take_append_of_le_length (by decide)]
    decide
  show (if (positionChannelOf Y).take 5 = "book.".toList then
          broadcastToSubscribers data "orderbook".toList
            (parseBookSymbol (positionChannelOf Y)) live subs
        else if (positionChannelOf Y).take 13 = "user.position.".toList then
          broadcastToSubscribers data "position".toList
            ((positionChannelOf Y).drop 13) live subs
        else (subs, [])) = (subs, [])
  rw [if_neg h5, if_neg h13]

/-- C4 counterexample: the channel book.A.B.100ms has the claimed shape with
X = A.B, a live orderbook entry with symbol A.B is registered, yet the
parser recovers only A and the entry receives nothing, so the fan-out is not
to the entries whose symbol equals X. -/
theorem book_dotted_symbol_counterexample :
    "book.A.B.100ms".toList
        = "book.".toList ++ "A.B".toList ++ ".100ms".toList ∧
    handleUpstream [1] [⟨"orderbook".toList, "A.B".toList, 1⟩]
        ⟨false, some ("book.A.B.100ms".toList, "d")⟩
      = ([⟨"orderbook".toList, "A.B".toList, 1⟩], []) :=
  ⟨by decide, by decide⟩

/-- C4 amended: for every frame whose channel is book.X.100ms with X
holding no dot (the token between the first two dots is then X itself),
the handler sweeps expired entries and sends the data exactly to the
surviving entries with kind orderbook and symbol X — entries with another
symbol or of kind position receive nothing. -/
theorem book_frame_fans_out_to_matching_orderbook (X : Chars) (hX : '.' ∉ X)
    (live : List Nat) (subs : List Sub) (data : String) :
    handleUpstream live subs ⟨false, some (bookChannelOf X, data)⟩
      = (cleanupDeadSubscriptions live subs,
         ((cleanupDeadSubscriptions live subs).filter (fun sub =>
             decide (sub.type = "orderbook".toList)
               && decide (sub.symbol = X))).map
           (fun sub => (sub.sid, data))) := by
  show broadcastToSubscribers data "orderbook".toList
      (parseBookSymbol (bookChannelOf X)) live subs = _
  rw [parse_book_nodot X hX]
  simp only [broadcastToSubscribers]
  congr 1
  apply congrArg (List.map _)
  apply List.filter_congr
  intro sub hsub
  have hlive : decide (sub.sid ∈ live) = true :=
    (List.mem_filter.mp hsub).2
  simp [hlive]

/-- C4 amended witness: a book.BTC-PERP.100ms frame reaches the live
orderbook entry for BTC-PERP and nothing else, while live position and
other-symbol entries stay registered and unserved. -/
theorem book_frame_fans_out_witness :
    handleUpstream [1, 2, 3]
        [⟨"orderbook".toList, "BTC-PERP".toList, 1⟩,
         ⟨"position".toList, "BTC-PERP".toList, 2⟩,
         ⟨"orderbook".toList, "ETH-PERP".toList, 3⟩]
        ⟨false, some (bookChannelOf "BTC-PERP".toList, "d")⟩
      = ([⟨"orderbook".toList, "BTC-PERP".toList, 1⟩,
          ⟨"position".toList, "BTC-PERP".toList, 2⟩,
          ⟨"orderbook".toList, "ETH-PERP".toList, 3⟩], [(1, "d")]) :=
  (book_frame_fans_out_to_matching_orderbook "BTC-PERP".toList (by decide)
      [1, 2, 3]
      [⟨"orderbook".toList, "BTC-PERP".toList, 1⟩,
       ⟨"position".toList, "BTC-PERP".toList, 2⟩,
       ⟨"orderbook".toList, "ETH-PERP".toList, 3⟩] "d").trans (by decide)

/-- C6 counterexample: a successfully parsed subscribe_position request
whose upstream send fails because the client is not connected appends no
registry entry — the handler returns before the push — contradicting the
claim that the entry is still recorded. -/
theorem subscribe_position_not_recorded_when_disconnected :
    onDownstreamMessage false false 7 []
        (some ⟨some "subscribe_position".toList, some "BTC-PERP".toList⟩)
      = ([], []) := by decide

/-- C6 amended: for subscribe_orderbook the registry entry is appended
whatever happens to the upstream send (failures are only logged); for
subscribe_position the entry is appended exactly when the client is
connected and the send does not throw — otherwise the failure is logged and
nothing is recorded. -/
theorem subscribe_registry_recording (connected sendThrows : Bool)
    (sid : Nat) (subs : List Sub) (sym : Chars) :
    (onDownstreamMessage connected sendThrows sid subs
        (some ⟨some "subscribe_orderbook".toList, some sym⟩)).1
      = subs ++ [⟨"orderbook".toList, sym, sid⟩] ∧
    (onDownstreamMessage connected sendThrows sid subs
        (some ⟨some "subscribe_position".toList, some sym⟩)).1
      = (if connected && !sendThrows
         then subs ++ [⟨"position".toList, sym, sid⟩] else subs) := by
  cases connected <;> cases sendThrows <;> exact ⟨rfl, rfl⟩

end Deribit
